import Mathlib

/-
Verification of the equity-metrics engine of the roi-toolkit repository
(src/roi/equity.py, with factory helpers from src/roi/utilities.py).

Modelling conventions, used throughout:

* Numeric observations are embedded as rationals.  Possibly-missing
  observations (NaN entries of a numpy array) are embedded as Option
  values, with none standing for NaN.  Reductions of the source that are
  NaN-excluding (np.nansum, np.nanmean, np.nanvar) are embedded by
  filtering the none entries where the source skips them, and by keeping
  the full length where the source uses len(...), which counts NaN
  entries.
* Where the source divides floats and the denominator can be zero, the
  embedding records the numpy outcome explicitly: an NpFloat value that
  is either a finite rational, nan, or a signed infinity.  Where a
  denominator is provably nonzero in every claim considered, plain
  rational division is used.
* Logarithms of the source (np.log) land in the reals via Real.log.
  Numpy yields nan on a negative argument, and np.nansum then drops that
  term; the embedding therefore guards each logarithm term with a
  positivity test and contributes zero otherwise, matching the nansum
  behaviour on those terms.
* Python exceptions are embedded with Except; the only exception type
  raised by the modelled code is ValueError.
-/

/-- Mean of a list of rationals, as computed by np.mean or np.nanmean on a
NaN-free array: sum divided by length.  Rational division by zero yields
zero, so the empty list gets mean zero; no claim below evaluates a mean of
an empty list on the main path. -/
def listMean (xs : List ℚ) : ℚ := xs.sum / xs.length

/-- Population variance of a list of rationals, as computed by np.nanvar on
a NaN-free array: mean of squared deviations from the mean (denominator N,
not N minus 1). -/
def popVar (xs : List ℚ) : ℚ :=
  (xs.map (fun x => (x - listMean xs) ^ 2)).sum / xs.length

/-- Embedding of Variance_Analysis.variance_within (equity.py lines
356-370): the sum over groups of the group population variance weighted by
len(group)/n, where n is the caller-supplied total count. -/
def variance_within (array_of_values : List (List ℚ)) (n : ℚ) : ℚ :=
  (array_of_values.map (fun group => popVar group * ((group.length : ℚ) / n))).sum

/-- Embedding of Variance_Analysis.variance_between (equity.py lines
372-384): the unweighted population variance of the list of group means. -/
def variance_between (array_of_values : List (List ℚ)) : ℚ :=
  popVar (array_of_values.map listMean)

/-- Embedding of Variance_Analysis.total_variance (equity.py lines
386-400): population variance of the concatenated observations. -/
def total_variance (observations : List ℚ) : ℚ :=
  popVar observations

/-- Result record of Variance_Analysis.calculate: the five attributes the
method sets on the instance. -/
structure VarianceResult where
  within : ℚ
  between : ℚ
  overall : ℚ
  ratio : ℚ
  residual : ℚ
  deriving DecidableEq

/-- Embedding of Variance_Analysis.calculate (equity.py lines 349-354).
The attribute n of the Metric parent is the length of the concatenation of
the group arrays.  The ratio attribute divides between by overall; in the
source this is float division, here rational division (every input on
which ratio is examined below has nonzero overall). -/
def variance_calculate (grouped_values : List (List ℚ)) : VarianceResult :=
  let n : ℚ := (grouped_values.flatten).length
  let w := variance_within grouped_values n
  let b := variance_between grouped_values
  let o := total_variance grouped_values.flatten
  ⟨w, b, o, b / o, o - (w + b)⟩

/-- Outcome of a numpy float expression: a finite value, nan, or a signed
infinity.  Used where the source can divide by zero. -/
inductive NpFloat where
  | val (q : ℚ)
  | nan
  | posInf
  | negInf
  deriving DecidableEq

/-- A numpy float outcome is finite exactly when it carries a rational
value. -/
def NpFloat.isFinite : NpFloat → Bool
  | .val _ => true
  | _ => false

/-- Division as numpy evaluates it on floats: a zero denominator yields
nan when the numerator is zero and a signed infinity otherwise (numpy
emits a RuntimeWarning in those cases but raises no exception). -/
def npDiv (a b : ℚ) : NpFloat :=
  if b = 0 then (if a = 0 then .nan else (if 0 < a then .posInf else .negInf))
  else .val (a / b)

/-- The non-NaN entries of an array, in order: what the nan-prefixed numpy
reductions operate on. -/
def nanValues (values : List (Option ℚ)) : List ℚ := values.filterMap id

/-- Embedding of np.nanmean: mean of the non-NaN entries.  On an all-NaN
array numpy returns nan; the rational convention here returns 0, and every
use below handles that case separately. -/
def nanmeanQ (values : List (Option ℚ)) : ℚ :=
  (nanValues values).sum / (nanValues values).length

/-- Embedding of the double comprehension in Gini.gini followed by
np.nansum: the pairwise absolute differences where either member is NaN
are themselves NaN and are dropped by nansum, so the sum ranges over the
non-NaN entries only. -/
def giniPairSum (xs : List ℚ) : ℚ :=
  (xs.map (fun i => (xs.map (fun j => |i - j|)).sum)).sum

/-- Embedding of Gini.gini (equity.py lines 459-474).  Note that n is
len(values), which counts NaN entries, while the mean and the pairwise sum
exclude them.  When every entry is NaN, np.nanmean returns nan and the
whole expression is nan.  The function is total: the source contains no
raise statement, and a zero denominator produces a numpy warning plus a
non-finite float, never an exception. -/
def gini (values : List (Option ℚ)) : NpFloat :=
  if (nanValues values).length = 0 then .nan
  else npDiv (giniPairSum (nanValues values))
    (2 * (values.length : ℚ) * (values.length : ℚ) * nanmeanQ values)

/-- Embedding of Theil_T.theil_within_group (equity.py lines 145-161).
The source clamps negative ratios to zero before the logarithm; at a
clamped or zero ratio the product (0 times log 0, which numpy evaluates to
0 times minus infinity, a nan) is dropped by np.nansum, contributing
zero, which the positivity guard reproduces. -/
noncomputable def theilT_within_group (vector_of_values : List ℚ) : ℝ :=
  let mu := listMean vector_of_values
  (1 / (vector_of_values.length : ℝ)) *
    (vector_of_values.map (fun x =>
      let r := max (x / mu) 0
      if 0 < r then (r : ℝ) * Real.log (r : ℝ) else 0)).sum

/-- Embedding of Theil_T.s_i (equity.py lines 163-186): population share
times the ratio of the group mean to the overall mean. -/
def theilT_s_i (array : List ℚ) (N : ℚ) (mu : ℚ) : ℚ :=
  let N_i : ℚ := array.length
  let x_i_bar := listMean array
  (N_i / N) * (x_i_bar / mu)

/-- Embedding of Theil_T.first_term (equity.py lines 188-208). -/
noncomputable def theilT_first_term (list_of_groups : List (List ℚ)) : ℝ :=
  let N : ℚ := (list_of_groups.flatten).length
  let mu := listMean list_of_groups.flatten
  (list_of_groups.map (fun group =>
    theilT_within_group group * ((theilT_s_i group N mu : ℚ) : ℝ))).sum

/-- Embedding of Theil_T.second_term (equity.py lines 210-230).  A numpy
logarithm of a non-positive ratio is nan and the whole product term is
then dropped by np.nansum, reproduced by the positivity guard. -/
noncomputable def theilT_second_term (list_of_groups : List (List ℚ)) : ℝ :=
  let N : ℚ := (list_of_groups.flatten).length
  let mu := listMean list_of_groups.flatten
  (list_of_groups.map (fun group =>
    let r := listMean group / mu
    if 0 < r then ((theilT_s_i group N mu : ℚ) : ℝ) * Real.log (r : ℝ) else 0)).sum

/-- Attributes set by the Theil calculate methods.  The ratio attribute is
a float division between/overall; when overall is zero the float result is
non-finite (nan for 0/0, a signed infinity otherwise), embedded as none. -/
structure TheilResult where
  within : ℝ
  between : ℝ
  overall : ℝ
  ratio : Option ℝ

open Classical in

/-- The four attribute values computed by Theil_T.calculate (equity.py
lines 136-140). -/
noncomputable def theilT_results (gs : List (List ℚ)) : TheilResult :=
  let w := theilT_first_term gs
  let b := theilT_second_term gs
  let o := w + b
  ⟨w, b, o, if o = 0 then none else some (b / o)⟩

/-- The only exception type raised by the modelled source code. -/
inductive PyExn where
  | valueError
  deriving DecidableEq

/-- Embedding of the guard min(self.ungrouped_observations  < 0) in the
Theil calculate methods: the Python min of a boolean numpy array is True
exactly when every entry is True, so the guard fires only when every
observation is negative. -/
def allObservationsNegative (gs : List (List ℚ)) : Bool :=
  gs.flatten.all (fun x => decide (x < 0))

/-- Embedding of Theil_T.calculate (equity.py lines 136-143).  The source
assigns within, between, overall and ratio first and only afterwards
evaluates the guard, raising ValueError when every observation is
negative; the embedding returns the computed attributes exactly when the
guard does not fire. -/
noncomputable def theilT_calculate (gs : List (List ℚ)) : Except PyExn TheilResult :=
  let res := theilT_results gs
  if allObservationsNegative gs then .error .valueError else .ok res

/-- Embedding of Theil_L.theil_within_group (equity.py lines 251-266).
Numpy yields nan on the logarithm of a negative ratio and np.nansum drops
that term, reproduced by the positivity guard. -/
noncomputable def theilL_within_group (vector_of_values : List ℚ) : ℝ :=
  let mu := listMean vector_of_values
  (1 / (vector_of_values.length : ℝ)) *
    (vector_of_values.map (fun x =>
      let r := mu / x
      if 0 < r then Real.log (r : ℝ) else 0)).sum

/-- Embedding of Theil_L.s_i (equity.py lines 268-290): population share
only. -/
def theilL_s_i (array : List ℚ) (N : ℚ) : ℚ :=
  let N_i : ℚ := array.length
  N_i / N

/-- Embedding of Theil_L.first_term (equity.py lines 292-312). -/
noncomputable def theilL_first_term (list_of_groups : List (List ℚ)) : ℝ :=
  let N : ℚ := (list_of_groups.flatten).length
  (list_of_groups.map (fun group =>
    theilL_within_group group * ((theilL_s_i group N : ℚ) : ℝ))).sum

/-- Embedding of Theil_L.second_term (equity.py lines 314-334), with the
same nansum treatment of non-positive logarithm arguments as in the Theil
T second term. -/
noncomputable def theilL_second_term (list_of_groups : List (List ℚ)) : ℝ :=
  let N : ℚ := (list_of_groups.flatten).length
  let mu := listMean list_of_groups.flatten
  (list_of_groups.map (fun group =>
    let r := mu / listMean group
    if 0 < r then ((theilL_s_i group N : ℚ) : ℝ) * Real.log (r : ℝ) else 0)).sum

open Classical in

/-- The four attribute values computed by Theil_L.calculate (equity.py
lines 242-246). -/
noncomputable def theilL_results (gs : List (List ℚ)) : TheilResult :=
  let w := theilL_first_term gs
  let b := theilL_second_term gs
  let o := w + b
  ⟨w, b, o, if o = 0 then none else some (b / o)⟩

/-- Embedding of Theil_L.calculate (equity.py lines 242-249), with the
same guard placement as Theil_T.calculate. -/
noncomputable def theilL_calculate (gs : List (List ℚ)) : Except PyExn TheilResult :=
  let res := theilL_results gs
  if allObservationsNegative gs then .error .valueError else .ok res

/-- Modelled from the spec wording of claim C5: the Theil T per-group
share is the population share times the ratio of the group mean to the
overall mean. -/
def theil_share_spec_T (group : List ℚ) (N mu : ℚ) : ℚ :=
  ((group.length : ℚ) / N) * (listMean group / mu)

/-- Modelled from the spec wording of claim C5: the Theil L per-group
share is the population share only. -/
def theil_share_spec_L (group : List ℚ) (N : ℚ) : ℚ :=
  (group.length : ℚ) / N

/-- Instance attributes assigned by Metric.__init__ (equity.py lines
66-76).  The viz attribute, a boxplot side effect, is not modelled.
Observations are Option values, none standing for NaN, and nans counts
them as np.sum(np.isnan(...)) does. -/
structure MetricState where
  unique_groups : List String
  grouped_values : List (List (Option ℚ))
  ungrouped_observations : List (Option ℚ)
  n_groups : ℕ
  n : ℕ
  nans : ℕ
  deriving DecidableEq

/-- Embedding of Metric.__init__ (equity.py lines 66-76): attributes are
assigned unconditionally; the body contains no comparison of the two
argument lengths and no raise statement (only a non-fatal warning when
nans is positive), so construction is a total function. -/
def metric_init (unique_groups : List String)
    (grouped_values : List (List (Option ℚ))) : MetricState :=
  let ungrouped := grouped_values.flatten
  ⟨unique_groups, grouped_values, ungrouped, unique_groups.length, ungrouped.length,
    (ungrouped.filter (fun v => v.isNone)).length⟩

/-- Python sample argument of Metric.from_dataframe: False, an int, or a
float. -/
inductive PySample where
  | pyBool (b : Bool)
  | pyInt (n : ℤ)
  | pyFloat (q : ℚ)
  deriving DecidableEq

/-- Embedding of the Python comparison sample != False in
Metric.from_dataframe: the Python False equals the integer 0 and the float
0.0, so those arguments compare equal to False and disable sampling. -/
def sampleNeFalse : PySample → Bool
  | .pyBool b => b
  | .pyInt n => decide (n ≠ 0)
  | .pyFloat q => decide (q ≠ 0)

/-- Embedding of isinstance(sample, int): Python bool is a subclass of
int, while a float is never an int, whatever its value. -/
def sampleIsInt : PySample → Bool
  | .pyBool _ => true
  | .pyInt _ => true
  | .pyFloat _ => false

/-- The integer a sample argument denotes when handed to pandas
DataFrame.sample: True counts as 1. -/
def sampleToInt : PySample → ℤ
  | .pyBool b => if b then 1 else 0
  | .pyInt n => n
  | .pyFloat _ => 0

/-- Embedding of the sample handling of Metric.from_dataframe (equity.py
lines 92-97), combined with the validation pandas DataFrame.sample applies
to its size argument on a frame with nrows rows: pandas raises ValueError
for a negative request or one exceeding the population (sampling is
without replacement).  The result is the effective sample size, none when
the whole dataset is used.  The random choice of rows itself is not
modelled. -/
def factory_sample_check (sample : PySample) (nrows : ℕ) : Except PyExn (Option ℤ) :=
  if sampleNeFalse sample then
    if sampleIsInt sample then
      let n := sampleToInt sample
      if n < 0 ∨ (nrows : ℤ) < n then .error .valueError
      else .ok (some n)
    else .error .valueError
  else .ok none

/-- Keys of a tabular frame, a frame being embedded as a list of rows with
the grouping column already projected to a single label and the value
column entry attached.  Pandas groupby sorts the keys by default; the
embedding keeps first-occurrence order, which is irrelevant to the claims
below. -/
def frameKeys (frame : List (String × ℚ)) : List String :=
  (frame.map Prod.fst).eraseDups

/-- Values of the rows carrying a given group key, in row order. -/
def keyValues (frame : List (String × ℚ)) (k : String) : List ℚ :=
  (frame.filter (fun r => decide (r.1 = k))).map Prod.snd

/-- Embedding of utilities.dataframe_groups_to_ndarray (utilities.py lines
168-184): the group labels and the per-group value arrays. -/
def dataframe_groups_to_ndarray (frame : List (String × ℚ)) :
    List String × List (List ℚ) :=
  (frameKeys frame, (frameKeys frame).map (fun k => keyValues frame k))

/-- Embedding of utilities.multiple_describe (utilities.py lines 153-166),
restricted to the count and mean aggregates (the source also computes
median, sd, min and max; the claims below concern only where the summary
is stored, not its full content). -/
def multiple_describe (frame : List (String × ℚ)) : List (String × ℕ × ℚ) :=
  (frameKeys frame).map (fun k => (k, (keyValues frame k).length, listMean (keyValues frame k)))

/-- Class-level attribute slots of a Metric subtype.  Metric.from_dataframe
assigns cls.summary and cls.sample, so these live on the class object,
one shared slot per subtype, not on any instance. -/
structure FactoryClassState where
  summary : Option (List (String × ℕ × ℚ))
  sample : Option PySample
  deriving DecidableEq

/-- Embedding of Metric.from_dataframe (equity.py lines 81-101) on the
default sample=False path: the frame is grouped, the derived summary and
the sample argument are written onto the class object, and a fresh
instance is built by Metric.__init__.  The function returns the updated
class state together with the instance; frames here carry no NaN values,
so grouped values are lifted with some. -/
def from_dataframe (_cls : FactoryClassState) (frame : List (String × ℚ)) :
    FactoryClassState × MetricState :=
  let grouped := dataframe_groups_to_ndarray frame
  (⟨some (multiple_describe frame), some (.pyBool false)⟩,
    metric_init grouped.1 (grouped.2.map (fun g => g.map some)))

/-- Python attribute lookup for the summary of a factory-built instance:
the factory never assigns an instance-level summary, so reading
instance.summary falls through to the class object and yields whatever the
latest factory call stored there, for every instance alike. -/
def instance_summary (cls : FactoryClassState) (_inst : MetricState) :
    Option (List (String × ℕ × ℚ)) :=
  cls.summary

/-- Sum of a mapped list where every term is multiplied on the right by a
fixed constant. -/
theorem lsum_map_mul_right {α : Type} (l : List α) (f : α → ℚ) (c : ℚ) :
    (l.map (fun x => f x * c)).sum = (l.map f).sum * c := by
  induction l with
  | nil => simp
  | cons a t ih => simp [ih, add_mul]

/-- Sum of a mapped list of pointwise differences. -/
theorem lsum_map_sub {α : Type} (l : List α) (f g : α → ℚ) :
    (l.map (fun x => f x - g x)).sum = (l.map f).sum - (l.map g).sum := by
  induction l with
  | nil => simp
  | cons a t ih => simp [ih]; ring

/-- Sum of a constant list obtained by mapping. -/
theorem lsum_map_const {α : Type} (l : List α) (c : ℚ) :
    (l.map (fun _ => c)).sum = (l.length : ℚ) * c := by
  induction l with
  | nil => simp
  | cons a t ih => simp [ih]; ring

/-- Expansion of the sum of squared deviations about an arbitrary center. -/
theorem lsum_sq_dev (xs : List ℚ) (m : ℚ) :
    (xs.map (fun x => (x - m) ^ 2)).sum
      = (xs.map (fun x => x ^ 2)).sum - 2 * m * xs.sum + (xs.length : ℚ) * m ^ 2 := by
  induction xs with
  | nil => simp
  | cons a t ih =>
    simp [ih]
    ring

/-- Moment form of the population variance: mean of squares minus square
of the mean, valid for nonempty lists. -/
theorem popVar_moment (xs : List ℚ) (h : xs ≠ []) :
    popVar xs = (xs.map (fun x => x ^ 2)).sum / xs.length - (listMean xs) ^ 2 := by
  have hlen : xs.length ≠ 0 := by
    simpa using List.length_pos.mpr h |>.ne'
  have hn : (xs.length : ℚ) ≠ 0 := Nat.cast_ne_zero.mpr hlen
  unfold popVar listMean
  rw [lsum_sq_dev]
  field_simp
  ring

/-- Sum of a constant list of naturals obtained by mapping. -/
theorem lsum_map_const_nat {α : Type} (l : List α) (c : ℕ) :
    (l.map (fun _ => c)).sum = l.length * c := by
  induction l with
  | nil => simp
  | cons a t ih => simp [ih, Nat.succ_mul]; ring

/-- Helper: with every group of the same nonzero size k, the variance
decomposition of the source is exact, because the unweighted variance of
the group means coincides with the size-weighted one. -/
theorem variance_residual_zero_of_equal_sizes
    (gs : List (List ℚ)) (k : ℕ) (hk : k ≠ 0) (hne : gs ≠ [])
    (hlen : ∀ g ∈ gs, g.length = k) :
    (variance_calculate gs).residual = 0 := by
  have hkq : (k : ℚ) ≠ 0 := Nat.cast_ne_zero.mpr hk
  have hGq : ((gs.length : ℚ)) ≠ 0 :=
    Nat.cast_ne_zero.mpr (by simpa using List.length_pos.mpr hne |>.ne')
  -- length of the concatenation
  have hjlen : ((gs.flatten).length : ℚ) = (gs.length : ℚ) * (k : ℚ) := by
    have h1 : (gs.map List.length).sum = gs.length * k := by
      rw [show gs.map List.length = gs.map (fun _ => k) from
        List.map_eq_map_iff.mpr (fun g hg => hlen g hg)]
      exact lsum_map_const_nat gs k
    rw [List.length_flatten, h1]
    push_cast
    ring
  have hflat_ne : gs.flatten ≠ [] := by
    intro hnil
    have h0 : ((gs.flatten).length : ℚ) = 0 := by rw [hnil]; simp
    rw [hjlen] at h0
    exact (mul_ne_zero hGq hkq) h0
  -- aggregate sums
  have hsum : (gs.flatten).sum = (gs.map List.sum).sum := List.sum_flatten
  have hsq : ((gs.flatten).map (fun x => x ^ 2)).sum
      = (gs.map (fun g => (g.map (fun x => x ^ 2)).sum)).sum := by
    rw [List.map_flatten, List.sum_flatten, List.map_map]
    rfl
  -- per-group mean in terms of the common size
  have hmean : ∀ g ∈ gs, listMean g = g.sum * (1 / (k : ℚ)) := by
    intro g hg
    unfold listMean
    rw [hlen g hg]
    ring
  have hg_ne : ∀ g ∈ gs, g ≠ [] := by
    intro g hg hnil
    apply hk
    rw [← hlen g hg, hnil]
    rfl
  have hmean_flat : listMean gs.flatten
      = (gs.map List.sum).sum / ((gs.length : ℚ) * k) := by
    rw [show listMean gs.flatten = gs.flatten.sum / ((gs.flatten.length : ℕ) : ℚ) from rfl]
    rw [hsum, hjlen]
  -- the three attributes in moment form
  have ho : (variance_calculate gs).overall
      = (gs.map (fun g => (g.map (fun x => x ^ 2)).sum)).sum / ((gs.length : ℚ) * k)
        - ((gs.map List.sum).sum / ((gs.length : ℚ) * k)) ^ 2 := by
    simp only [variance_calculate, total_variance]
    rw [popVar_moment _ hflat_ne, hsq, hmean_flat, hjlen]
  have hw : (variance_calculate gs).within
      = (gs.map (fun g => (g.map (fun x => x ^ 2)).sum)).sum * (1 / (k : ℚ))
          * ((k : ℚ) / ((gs.length : ℚ) * k))
        - (gs.map (fun g => g.sum ^ 2)).sum * (1 / (k : ℚ)) ^ 2
          * ((k : ℚ) / ((gs.length : ℚ) * k)) := by
    simp only [variance_calculate, variance_within]
    rw [hjlen]
    rw [show gs.map (fun g => popVar g * ((g.length : ℚ) / ((gs.length : ℚ) * k)))
        = gs.map (fun g => (g.map (fun x => x ^ 2)).sum * (1 / (k : ℚ)) * ((k : ℚ) / ((gs.length : ℚ) * k))
            - g.sum ^ 2 * (1 / (k : ℚ)) ^ 2 * ((k : ℚ) / ((gs.length : ℚ) * k))) from
      List.map_eq_map_iff.mpr (fun g hg => by
        rw [popVar_moment g (hg_ne g hg), hmean g hg, hlen g hg]
        field_simp
        ring)]
    rw [show (fun g : List ℚ => (g.map (fun x => x ^ 2)).sum * (1 / (k : ℚ)) * ((k : ℚ) / ((gs.length : ℚ) * k))
            - g.sum ^ 2 * (1 / (k : ℚ)) ^ 2 * ((k : ℚ) / ((gs.length : ℚ) * k)))
        = (fun g : List ℚ => ((fun g : List ℚ => (g.map (fun x => x ^ 2)).sum * (1 / (k : ℚ)) * ((k : ℚ) / ((gs.length : ℚ) * k))) g)
            - ((fun g : List ℚ => g.sum ^ 2 * (1 / (k : ℚ)) ^ 2 * ((k : ℚ) / ((gs.length : ℚ) * k))) g)) from rfl]
    rw [lsum_map_sub]
    rw [show (fun g : List ℚ => (g.map (fun x => x ^ 2)).sum * (1 / (k : ℚ)) * ((k : ℚ) / ((gs.length : ℚ) * k)))
        = (fun g : List ℚ => ((fun g : List ℚ => (g.map (fun x => x ^ 2)).sum * (1 / (k : ℚ))) g) * ((k : ℚ) / ((gs.length : ℚ) * k))) from rfl]
    rw [lsum_map_mul_right]
    rw [show (fun g : List ℚ => (g.map (fun x => x ^ 2)).sum * (1 / (k : ℚ)))
        = (fun g : List ℚ => ((fun g : List ℚ => (g.map (fun x => x ^ 2)).sum) g) * (1 / (k : ℚ))) from rfl]
    rw [lsum_map_mul_right]
    rw [show (fun g : List ℚ => g.sum ^ 2 * (1 / (k : ℚ)) ^ 2 * ((k : ℚ) / ((gs.length : ℚ) * k)))
        = (fun g : List ℚ => ((fun g : List ℚ => g.sum ^ 2 * (1 / (k : ℚ)) ^ 2) g) * ((k : ℚ) / ((gs.length : ℚ) * k))) from rfl]
    rw [lsum_map_mul_right]
    rw [show (fun g : List ℚ => g.sum ^ 2 * (1 / (k : ℚ)) ^ 2)
        = (fun g : List ℚ => ((fun g : List ℚ => g.sum ^ 2) g) * (1 / (k : ℚ)) ^ 2) from rfl]
    rw [lsum_map_mul_right]
  have hM : (gs.map listMean).sum = (gs.map List.sum).sum * (1 / (k : ℚ)) := by
    rw [show gs.map listMean = gs.map (fun g => g.sum * (1 / (k : ℚ))) from
      List.map_eq_map_iff.mpr (fun g hg => hmean g hg)]
    exact lsum_map_mul_right gs List.sum (1 / (k : ℚ))
  have hb : (variance_calculate gs).between
      = (gs.map (fun g => g.sum ^ 2)).sum * (1 / (k : ℚ)) ^ 2 / (gs.length : ℚ)
        - ((gs.map List.sum).sum * (1 / (k : ℚ)) / (gs.length : ℚ)) ^ 2 := by
    simp only [variance_calculate, variance_between]
    have hmeans_ne : gs.map listMean ≠ [] := by
      intro hnil
      exact hne (List.map_eq_nil_iff.mp hnil)
    rw [popVar_moment _ hmeans_ne]
    rw [show listMean (gs.map listMean)
        = (gs.map listMean).sum / (((gs.map listMean).length : ℕ) : ℚ) from rfl]
    rw [hM, List.length_map, List.map_map]
    rw [show gs.map ((fun x : ℚ => x ^ 2) ∘ listMean)
        = gs.map (fun g => ((fun g : List ℚ => g.sum ^ 2) g) * (1 / (k : ℚ)) ^ 2) from
      List.map_eq_map_iff.mpr (fun g hg => by
        simp only [Function.comp]
        rw [hmean g hg]
        ring)]
    rw [lsum_map_mul_right]
  have hres : (variance_calculate gs).residual
      = (variance_calculate gs).overall
        - ((variance_calculate gs).within + (variance_calculate gs).between) := rfl
  rw [hres, ho, hw, hb]
  field_simp
  ring

/-- Claim C1 (corrected).  For inputs whose groups all share one nonzero
size, the variance decomposition of Variance_Analysis.calculate is exactly
additive: the residual attribute is zero and the difference between
overall and within plus between is below 1e-9.  For unequal group sizes
the claimed additivity fails, because variance_between takes the
unweighted population variance of the group means; see the accompanying
counterexample. -/
theorem variance_decomposition_additivity_equal_group_sizes
    (gs : List (List ℚ)) (k : ℕ) (hk : k ≠ 0) (hne : gs ≠ [])
    (hlen : ∀ g ∈ gs, g.length = k) :
    |(variance_calculate gs).overall
      - ((variance_calculate gs).within + (variance_calculate gs).between)| < 1 / 1000000000
    ∧ (variance_calculate gs).residual = 0 := by
  have h := variance_residual_zero_of_equal_sizes gs k hk hne hlen
  have heq : (variance_calculate gs).overall
      - ((variance_calculate gs).within + (variance_calculate gs).between) = 0 := h
  constructor
  · rw [heq]
    norm_num
  · exact h

/-- Witness for claim C1: the equal-size input with groups [1, 2] and
[3, 4] satisfies the hypotheses, and the theorem yields exact additivity
there. -/
theorem variance_decomposition_additivity_witness :
    ((2 : ℕ) ≠ 0 ∧ ([[(1 : ℚ), 2], [3, 4]] : List (List ℚ)) ≠ []
      ∧ (∀ g ∈ ([[(1 : ℚ), 2], [3, 4]] : List (List ℚ)), g.length = 2))
    ∧ (|(variance_calculate [[(1 : ℚ), 2], [3, 4]]).overall
        - ((variance_calculate [[(1 : ℚ), 2], [3, 4]]).within
          + (variance_calculate [[(1 : ℚ), 2], [3, 4]]).between)| < 1 / 1000000000
      ∧ (variance_calculate [[(1 : ℚ), 2], [3, 4]]).residual = 0) :=
  ⟨⟨by decide, by decide, by decide⟩,
    variance_decomposition_additivity_equal_group_sizes [[(1 : ℚ), 2], [3, 4]] 2
      (by decide) (by decide) (by decide)⟩

/-- Counterexample to claim C1 as stated: on the grouping with one group
holding a single 0 and one group holding two 2s, the overall population
variance is 8/9 while within plus between is 1, so the residual is -1/9
and additivity fails far beyond the 1e-9 tolerance. -/
theorem variance_additivity_counterexample :
    ¬ (|(variance_calculate [[(0 : ℚ)], [2, 2]]).overall
        - ((variance_calculate [[(0 : ℚ)], [2, 2]]).within
          + (variance_calculate [[(0 : ℚ)], [2, 2]]).between)| < 1 / 1000000000) := by
  norm_num [variance_calculate, variance_within, variance_between, total_variance, popVar, listMean]
  norm_num [abs]

/-- Claim C3 (corrected).  When the NaN-excluding mean of the input is
zero, the single-array Gini function does not fail: it returns a
non-finite float (nan when the pairwise-difference sum is also zero, a
signed infinity otherwise) because the division is performed by numpy
without any guard; no exception of any kind is raised. -/
theorem gini_zero_mean_nonfinite (values : List (Option ℚ))
    (h : nanmeanQ values = 0) : (gini values).isFinite = false := by
  unfold gini
  by_cases hempty : (nanValues values).length = 0
  · simp [hempty, NpFloat.isFinite]
  · rw [if_neg hempty]
    have hden : 2 * ((values.length : ℚ)) * ((values.length : ℚ)) * nanmeanQ values = 0 := by
      rw [h]; ring
    rw [hden]
    unfold npDiv
    rcases lt_trichotomy (giniPairSum (nanValues values)) 0 with hlt | heq | hgt
    · simp [hlt.ne, not_lt.mpr hlt.le, NpFloat.isFinite]
    · simp [heq, NpFloat.isFinite]
    · simp [hgt.ne', hgt, NpFloat.isFinite]

/-- Witness for claim C3: the all-zero input has NaN-excluding mean zero,
and the theorem shows its Gini value is non-finite. -/
theorem gini_zero_mean_nonfinite_witness :
    nanmeanQ [some (0 : ℚ), some 0, some 0, some 0] = 0
    ∧ (gini [some (0 : ℚ), some 0, some 0, some 0]).isFinite = false :=
  ⟨by simp [nanmeanQ, nanValues],
    gini_zero_mean_nonfinite [some (0 : ℚ), some 0, some 0, some 0]
      (by simp [nanmeanQ, nanValues])⟩

/-- Counterexample to claim C3 as stated: on the input with four zeros the
Gini function evaluates to nan (the numpy division 0.0/0.0), silently; it
does not raise any error. -/
theorem gini_zero_input_is_nan :
    gini [some (0 : ℚ), some 0, some 0, some 0] = NpFloat.nan := by
  have h1 : nanValues [some (0 : ℚ), some 0, some 0, some 0] = [0, 0, 0, 0] := by
    simp [nanValues]
  norm_num [gini, h1, nanmeanQ, giniPairSum, npDiv]

/-- Claim C6 (code bug).  The module docstring and the construction-time
warning state that all metrics ignore NaN values, in effect dropping them,
but the Gini denominator uses len(values), which counts NaN entries: on
the input with values 1 and 2 plus one NaN the result is 2/27, while on
the same input with the NaN removed it is 1/6, so the results differ. -/
theorem gini_nan_not_equivalent_to_dropping :
    gini [some (1 : ℚ), some 2, none] = NpFloat.val (2 / 27)
    ∧ gini [some (1 : ℚ), some 2] = NpFloat.val (1 / 6)
    ∧ gini [some (1 : ℚ), some 2, none] ≠ gini [some (1 : ℚ), some 2] := by
  have h1 : nanValues [some (1 : ℚ), some 2, none] = [1, 2] := by
    simp [nanValues]
  have h2 : nanValues [some (1 : ℚ), some 2] = [1, 2] := by
    simp [nanValues]
  refine ⟨?_, ?_, ?_⟩
  · norm_num [gini, h1, nanmeanQ, giniPairSum, npDiv]
  · norm_num [gini, h2, nanmeanQ, giniPairSum, npDiv]
  · norm_num [gini, h1, h2, nanmeanQ, giniPairSum, npDiv]

/-- Claim C2 (code bug).  An input containing a negative observation (but
not exclusively negative ones) does not raise: Theil_T.calculate and
Theil_L.calculate compute and return all four attributes, because the
guard min(observations < 0) is true only when every observation is
negative, and it is evaluated only after the attributes are assigned. -/
theorem theil_negative_value_no_error :
    theilT_calculate [[(2 : ℚ), -1]] = .ok (theilT_results [[(2 : ℚ), -1]])
    ∧ theilL_calculate [[(2 : ℚ), -1]] = .ok (theilL_results [[(2 : ℚ), -1]]) := by
  have h : allObservationsNegative [[(2 : ℚ), -1]] = false := by decide
  constructor
  · simp [theilT_calculate, h]
  · simp [theilL_calculate, h]

/-- Claim C4 (confirmed).  For inputs of strictly positive observations
(and indeed for all inputs), the Theil T and Theil L attributes satisfy
overall = within + between exactly, because calculate assigns overall as
that very sum; the 1e-9 tolerance follows. -/
theorem theil_overall_equals_within_plus_between (gs : List (List ℚ))
    (_hpos : ∀ g ∈ gs, ∀ x ∈ g, 0 < x) :
    ((theilT_results gs).overall = (theilT_results gs).within + (theilT_results gs).between
      ∧ (theilL_results gs).overall = (theilL_results gs).within + (theilL_results gs).between)
    ∧ (|(theilT_results gs).overall
        - ((theilT_results gs).within + (theilT_results gs).between)| < 1 / 1000000000
      ∧ |(theilL_results gs).overall
        - ((theilL_results gs).within + (theilL_results gs).between)| < 1 / 1000000000) := by
  have hT : (theilT_results gs).overall
      = (theilT_results gs).within + (theilT_results gs).between := rfl
  have hL : (theilL_results gs).overall
      = (theilL_results gs).within + (theilL_results gs).between := rfl
  refine ⟨⟨hT, hL⟩, ?_, ?_⟩
  · rw [hT, sub_self, abs_zero]
    norm_num
  · rw [hL, sub_self, abs_zero]
    norm_num

/-- Witness for claim C4 on the positive input with one group holding 2
and 4. -/
theorem theil_overall_equals_within_plus_between_witness :
    (∀ g ∈ ([[(2 : ℚ), 4]] : List (List ℚ)), ∀ x ∈ g, 0 < x)
    ∧ (((theilT_results [[(2 : ℚ), 4]]).overall
          = (theilT_results [[(2 : ℚ), 4]]).within + (theilT_results [[(2 : ℚ), 4]]).between
        ∧ (theilL_results [[(2 : ℚ), 4]]).overall
          = (theilL_results [[(2 : ℚ), 4]]).within + (theilL_results [[(2 : ℚ), 4]]).between)
      ∧ (|(theilT_results [[(2 : ℚ), 4]]).overall
          - ((theilT_results [[(2 : ℚ), 4]]).within + (theilT_results [[(2 : ℚ), 4]]).between)| < 1 / 1000000000
        ∧ |(theilL_results [[(2 : ℚ), 4]]).overall
          - ((theilL_results [[(2 : ℚ), 4]]).within + (theilL_results [[(2 : ℚ), 4]]).between)| < 1 / 1000000000)) :=
  ⟨by decide, theil_overall_equals_within_plus_between [[(2 : ℚ), 4]] (by decide)⟩

/-- Claim C5 (confirmed).  The s_i weight of Theil_T equals population
share times the ratio of group mean to overall mean, and the s_i weight of
Theil_L equals the population share alone. -/
theorem theil_group_weights_match_spec :
    (∀ (group : List ℚ) (N mu : ℚ), theilT_s_i group N mu = theil_share_spec_T group N mu)
    ∧ (∀ (group : List ℚ) (N : ℚ), theilL_s_i group N = theil_share_spec_L group N) :=
  ⟨fun _ _ _ => rfl, fun _ _ => rfl⟩

/-- Sum of a list whose members all equal a fixed rational. -/
theorem lsum_of_const_mem (g : List ℚ) (c : ℚ) (h : ∀ x ∈ g, x = c) :
    g.sum = (g.length : ℚ) * c := by
  induction g with
  | nil => simp
  | cons a t ih =>
    have ha : a = c := h a (List.mem_cons_self a t)
    have ht := ih (fun x hx => h x (List.mem_cons_of_mem a hx))
    simp [ha, ht]
    ring

/-- Mean of a nonempty constant list. -/
theorem listMean_const (g : List ℚ) (c : ℚ) (hne : g ≠ []) (h : ∀ x ∈ g, x = c) :
    listMean g = c := by
  have hn : (g.length : ℚ) ≠ 0 :=
    Nat.cast_ne_zero.mpr (by simpa using List.length_pos.mpr hne |>.ne')
  unfold listMean
  rw [lsum_of_const_mem g c h]
  field_simp

/-- Helper: on groups that are all constant at the same positive value,
both Theil T sum terms vanish. -/
theorem theilT_constant_terms_zero (gs : List (List ℚ)) (c : ℚ) (hc : 0 < c)
    (hne : gs ≠ []) (hgs : ∀ g ∈ gs, g ≠ [] ∧ ∀ x ∈ g, x = c) :
    theilT_first_term gs = 0 ∧ theilT_second_term gs = 0 := by
  have hmean : ∀ g ∈ gs, listMean g = c :=
    fun g hg => listMean_const g c (hgs g hg).1 (hgs g hg).2
  have hflat : ∀ x ∈ gs.flatten, x = c := by
    intro x hx
    rw [List.mem_flatten] at hx
    obtain ⟨g, hg, hxg⟩ := hx
    exact (hgs g hg).2 x hxg
  have hflat_ne : gs.flatten ≠ [] := by
    obtain ⟨g0, t, rfl⟩ : ∃ g0 t, gs = g0 :: t := by
      cases gs with
      | nil => exact absurd rfl hne
      | cons a t => exact ⟨a, t, rfl⟩
    have hg0 := (hgs g0 (List.mem_cons_self g0 t)).1
    cases g0 with
    | nil => exact absurd rfl hg0
    | cons a s => simp
  have hmu : listMean gs.flatten = c := listMean_const _ c hflat_ne hflat
  constructor
  · simp only [theilT_first_term]
    apply List.sum_eq_zero
    intro y hy
    rw [List.mem_map] at hy
    obtain ⟨g, hg, rfl⟩ := hy
    have hwg : theilT_within_group g = 0 := by
      simp only [theilT_within_group]
      have hinner : (g.map (fun x =>
          if 0 < max (x / listMean g) 0
          then ((max (x / listMean g) 0 : ℚ) : ℝ) * Real.log ((max (x / listMean g) 0 : ℚ) : ℝ)
          else 0)).sum = 0 := by
        apply List.sum_eq_zero
        intro z hz
        rw [List.mem_map] at hz
        obtain ⟨w, hw, rfl⟩ := hz
        have hwc : w = c := (hgs g hg).2 w hw
        rw [hwc, hmean g hg, div_self hc.ne']
        norm_num
      rw [hinner, mul_zero]
    rw [hwg, zero_mul]
  · simp only [theilT_second_term]
    apply List.sum_eq_zero
    intro y hy
    rw [List.mem_map] at hy
    obtain ⟨g, hg, rfl⟩ := hy
    rw [hmean g hg, hmu, div_self hc.ne']
    norm_num

/-- Helper: if every group mean equals m (groups and the grouping
nonempty), the overall mean is m as well and the second Theil T term
vanishes: every ratio of group mean to overall mean is 1 with logarithm
zero (or, when m is zero, a nan term dropped by nansum). -/
theorem theilT_second_term_zero_of_equal_means (gs : List (List ℚ)) (m : ℚ)
    (hne : gs ≠ []) (hgne : ∀ g ∈ gs, g ≠ []) (hm : ∀ g ∈ gs, listMean g = m) :
    theilT_second_term gs = 0 := by
  have hsumg : ∀ g ∈ gs, g.sum = (g.length : ℚ) * m := by
    intro g hg
    have hn : (g.length : ℚ) ≠ 0 :=
      Nat.cast_ne_zero.mpr (by simpa using List.length_pos.mpr (hgne g hg) |>.ne')
    have h1 := hm g hg
    unfold listMean at h1
    rw [div_eq_iff hn] at h1
    rw [h1]
    ring
  have hflat_ne : gs.flatten ≠ [] := by
    obtain ⟨g0, t, rfl⟩ : ∃ g0 t, gs = g0 :: t := by
      cases gs with
      | nil => exact absurd rfl hne
      | cons a t => exact ⟨a, t, rfl⟩
    have hg0 := hgne g0 (List.mem_cons_self g0 t)
    cases g0 with
    | nil => exact absurd rfl hg0
    | cons a s => simp
  have hflatsum : gs.flatten.sum = ((gs.flatten.length : ℕ) : ℚ) * m := by
    rw [List.sum_flatten, List.length_flatten]
    rw [show gs.map List.sum = gs.map (fun g => ((fun g : List ℚ => (g.length : ℚ)) g) * m) from
      List.map_eq_map_iff.mpr (fun g hg => hsumg g hg)]
    rw [lsum_map_mul_right]
    push_cast
    rw [List.map_map]
    rfl
  have hmu : listMean gs.flatten = m := by
    have hn : ((gs.flatten.length : ℕ) : ℚ) ≠ 0 :=
      Nat.cast_ne_zero.mpr (by simpa using List.length_pos.mpr hflat_ne |>.ne')
    unfold listMean
    rw [hflatsum, mul_comm, mul_div_assoc, div_self hn, mul_one]
  simp only [theilT_second_term]
  apply List.sum_eq_zero
  intro y hy
  rw [List.mem_map] at hy
  obtain ⟨g, hg, rfl⟩ := hy
  rw [hm g hg, hmu]
  by_cases hm0 : m = 0
  · simp [hm0]
  · rw [div_self hm0]
    norm_num

/-- Claim C10 (corrected).  First part: whenever every group has the same
mean, the between term of Theil T is zero, so the ratio attribute is 0
whenever overall is nonzero; but when overall is zero the ratio is the
float division 0/0, which is nan, not 0.  Second part: in the fully
degenerate spec scenario where every group is constant at one common
positive value, within, between and overall are all zero as claimed and
the ratio is therefore nan. -/
theorem theilT_degenerate_identical_groups :
    (∀ (gs : List (List ℚ)) (m : ℚ), gs ≠ [] → (∀ g ∈ gs, g ≠ []) → (∀ g ∈ gs, listMean g = m) →
      (theilT_results gs).between = 0
      ∧ ((theilT_results gs).overall ≠ 0 → (theilT_results gs).ratio = some 0)
      ∧ ((theilT_results gs).overall = 0 → (theilT_results gs).ratio = none))
    ∧ (∀ (gs : List (List ℚ)) (c : ℚ), 0 < c → gs ≠ [] → (∀ g ∈ gs, g ≠ [] ∧ ∀ x ∈ g, x = c) →
      (theilT_results gs).within = 0 ∧ (theilT_results gs).between = 0
      ∧ (theilT_results gs).overall = 0 ∧ (theilT_results gs).ratio = none) := by
  constructor
  · intro gs m hne hgne hm
    have hb : theilT_second_term gs = 0 :=
      theilT_second_term_zero_of_equal_means gs m hne hgne hm
    refine ⟨by simp [theilT_results, hb], ?_, ?_⟩
    · intro ho
      have ho2 : theilT_first_term gs ≠ 0 := by
        have h3 : (theilT_results gs).overall
            = theilT_first_term gs + theilT_second_term gs := rfl
        rw [h3, hb, add_zero] at ho
        exact ho
      simp [theilT_results, hb]
      exact ho2
    · intro ho
      have ho2 : theilT_first_term gs + theilT_second_term gs = 0 := ho
      simp [theilT_results]
      exact ho2
  · intro gs c hc hne hgs
    obtain ⟨hw, hb⟩ := theilT_constant_terms_zero gs c hc hne hgs
    refine ⟨?_, ?_, ?_, ?_⟩
    · simp [theilT_results, hw]
    · simp [theilT_results, hb]
    · simp [theilT_results, hw, hb]
    · simp [theilT_results, hw, hb]

/-- Witness for claim C10: the first part applied to two singleton groups
with common mean 2, the second part applied to the spec scenario with two
groups of three observations equal to 3. -/
theorem theilT_degenerate_identical_groups_witness :
    ((([[(2 : ℚ)], [2]] : List (List ℚ)) ≠ [] ∧ (∀ g ∈ ([[(2 : ℚ)], [2]] : List (List ℚ)), g ≠ [])
        ∧ (∀ g ∈ ([[(2 : ℚ)], [2]] : List (List ℚ)), listMean g = 2))
      ∧ ((theilT_results [[(2 : ℚ)], [2]]).between = 0
        ∧ ((theilT_results [[(2 : ℚ)], [2]]).overall ≠ 0 → (theilT_results [[(2 : ℚ)], [2]]).ratio = some 0)
        ∧ ((theilT_results [[(2 : ℚ)], [2]]).overall = 0 → (theilT_results [[(2 : ℚ)], [2]]).ratio = none)))
    ∧ (((0 : ℚ) < 3 ∧ ([[(3 : ℚ), 3, 3], [3, 3, 3]] : List (List ℚ)) ≠ []
        ∧ (∀ g ∈ ([[(3 : ℚ), 3, 3], [3, 3, 3]] : List (List ℚ)), g ≠ [] ∧ ∀ x ∈ g, x = 3))
      ∧ ((theilT_results [[(3 : ℚ), 3, 3], [3, 3, 3]]).within = 0
        ∧ (theilT_results [[(3 : ℚ), 3, 3], [3, 3, 3]]).between = 0
        ∧ (theilT_results [[(3 : ℚ), 3, 3], [3, 3, 3]]).overall = 0
        ∧ (theilT_results [[(3 : ℚ), 3, 3], [3, 3, 3]]).ratio = none)) :=
  ⟨⟨⟨by decide, by decide, by simp [listMean]⟩,
      theilT_degenerate_identical_groups.1 [[(2 : ℚ)], [2]] 2
        (by decide) (by decide) (by simp [listMean])⟩,
    ⟨⟨by decide, by decide, by decide⟩,
      theilT_degenerate_identical_groups.2 [[(3 : ℚ), 3, 3], [3, 3, 3]] 3
        (by decide) (by decide) (by decide)⟩⟩

/-- Counterexample to claim C10 as stated: on the spec scenario input the
ratio attribute is not 0 but the non-finite float 0/0, embedded as none. -/
theorem theilT_degenerate_ratio_counterexample :
    (theilT_results [[(3 : ℚ), 3, 3], [3, 3, 3]]).ratio ≠ some 0 := by
  obtain ⟨hw, hb⟩ := theilT_constant_terms_zero [[(3 : ℚ), 3, 3], [3, 3, 3]] 3
    (by decide) (by decide) (by decide)
  simp [theilT_results, hw, hb]

/-- Claim C7 (corrected).  Direct construction performs no validation at
all: for every pair of argument lists, including mismatched ones, the
constructor returns an instance whose n_groups is the length of the group
list and whose n is the total count of observations; no ConstructionError
or any other exception exists on this path. -/
theorem metric_init_no_length_validation
    (unique_groups : List String) (grouped_values : List (List (Option ℚ))) :
    metric_init unique_groups grouped_values
      = ⟨unique_groups, grouped_values, grouped_values.flatten, unique_groups.length,
          grouped_values.flatten.length,
          (grouped_values.flatten.filter (fun v => v.isNone)).length⟩ :=
  rfl

/-- Counterexample to claim C7 as stated: with one group label but two
grouped arrays the lengths differ, yet construction succeeds and yields an
instance with n_groups 1 and n 2. -/
theorem metric_init_mismatch_counterexample :
    (metric_init ["A"] [[some 1], [some 2]]).n_groups = 1
    ∧ (metric_init ["A"] [[some 1], [some 2]]).n = 2 := by
  constructor <;> rfl

/-- Claim C9 (corrected).  The factory validates the sample argument as
follows: a nonzero float raises ValueError from the isinstance check; a
nonzero integer that is negative or exceeds the row count raises
ValueError from pandas; the integer 0 compares equal to False and silently
disables sampling instead of failing; a positive integer within the
population is accepted.  No ConfigurationError exists anywhere in the
code. -/
theorem factory_sample_validation :
    (∀ (q : ℚ) (nrows : ℕ), q ≠ 0 →
      factory_sample_check (.pyFloat q) nrows = .error .valueError)
    ∧ (∀ (n : ℤ) (nrows : ℕ), n ≠ 0 → (n < 0 ∨ (nrows : ℤ) < n) →
      factory_sample_check (.pyInt n) nrows = .error .valueError)
    ∧ (∀ nrows : ℕ, factory_sample_check (.pyInt 0) nrows = .ok none)
    ∧ (∀ (n : ℤ) (nrows : ℕ), 0 < n → n ≤ (nrows : ℤ) →
      factory_sample_check (.pyInt n) nrows = .ok (some n)) := by
  refine ⟨?_, ?_, ?_, ?_⟩
  · intro q nrows hq
    simp [factory_sample_check, sampleNeFalse, sampleIsInt, hq]
  · intro n nrows hn hbad
    simp [factory_sample_check, sampleNeFalse, sampleIsInt, sampleToInt, hn, hbad]
  · intro nrows
    simp [factory_sample_check, sampleNeFalse]
  · intro n nrows hpos hle
    simp [factory_sample_check, sampleNeFalse, sampleIsInt, sampleToInt, hpos.ne',
      not_lt.mpr hpos.le, not_lt.mpr hle]

/-- Witness for claim C9: a float argument 2.0 raises, the integer 10 on
a 5-row frame raises, the integer 0 silently disables sampling, and the
integer 3 on a 5-row frame is accepted. -/
theorem factory_sample_validation_witness :
    ((2 : ℚ) ≠ 0 ∧ factory_sample_check (.pyFloat 2) 5 = .error .valueError)
    ∧ ((10 : ℤ) ≠ 0 ∧ (((10 : ℤ) < 0 ∨ ((5 : ℕ) : ℤ) < 10)
        ∧ factory_sample_check (.pyInt 10) 5 = .error .valueError))
    ∧ factory_sample_check (.pyInt 0) 5 = .ok none
    ∧ ((0 : ℤ) < 3 ∧ (3 : ℤ) ≤ ((5 : ℕ) : ℤ)
        ∧ factory_sample_check (.pyInt 3) 5 = .ok (some 3)) :=
  ⟨⟨by decide, factory_sample_validation.1 2 5 (by decide)⟩,
    ⟨by decide, by decide, factory_sample_validation.2.1 10 5 (by decide) (by decide)⟩,
    factory_sample_validation.2.2.1 5,
    ⟨by decide, by decide, factory_sample_validation.2.2.2 3 5 (by decide) (by decide)⟩⟩

/-- Counterexample to claim C9 as stated: the sample size 0 is not a
positive integer, yet the factory does not fail; it treats 0 as equal to
False and uses the whole dataset. -/
theorem factory_sample_zero_accepted :
    factory_sample_check (.pyInt 0) 17 = .ok none := rfl

/-- Claim C8 (corrected).  The factory writes the derived summary onto the
class-level state: after any call the shared summary slot holds the new
frame summary, and an instance built by an earlier call thereafter reads
the summary of the later call, so factory-built instances share mutable
class-level state rather than being self-contained. -/
theorem from_dataframe_writes_class_state (cls : FactoryClassState)
    (f g : List (String × ℚ)) :
    (from_dataframe cls f).1.summary = some (multiple_describe f)
    ∧ instance_summary ((from_dataframe ((from_dataframe cls f).1) g).1)
        ((from_dataframe cls f).2) = some (multiple_describe g) :=
  ⟨rfl, rfl⟩

/-- Counterexample to claim C8 as stated: construct one instance from a
frame with two rows keyed A, then a second instance from a frame keyed B;
the first instance then reads the summary of the B frame, which differs
from the summary of its own A frame, so state is shared across instances. -/
theorem from_dataframe_shared_state_counterexample :
    instance_summary
        ((from_dataframe ((from_dataframe ⟨none, none⟩ [("A", (1 : ℚ)), ("A", 3)]).1)
          [("B", (5 : ℚ))]).1)
        ((from_dataframe ⟨none, none⟩ [("A", (1 : ℚ)), ("A", 3)]).2)
      = some (multiple_describe [("B", (5 : ℚ))])
    ∧ multiple_describe [("B", (5 : ℚ))] ≠ multiple_describe [("A", (1 : ℚ)), ("A", 3)] := by
  refine ⟨rfl, ?_⟩
  intro h
  have hkeys := congrArg (List.map Prod.fst) h
  have hB : (multiple_describe [("B", (5 : ℚ))]).map Prod.fst = ["B"] := rfl
  have hA : (multiple_describe [("A", (1 : ℚ)), ("A", 3)]).map Prod.fst = ["A"] := rfl
  rw [hB, hA] at hkeys
  exact absurd hkeys (by decide)
